/-
Verification of the housing-commute-analysis ETL aggregation pipeline.

This file gives a shallow embedding, in Lean 4, of the numeric and
relational core of the pipeline in `src/pipelines/` of the repository
(acs.py, demographics.py, build.py, spatial.py, zori.py) and proves or
refutes the specified properties about it.

Modelling conventions:
* pandas/numpy float values carrying data are modelled as exact
  rationals (`ℚ`); a pandas missing value (NaN / pd.NA) is modelled as
  `none` in `Option ℚ`.  Arithmetic on `Option ℚ` propagates `none`,
  matching pandas NA-propagation.  Where the source can actually
  produce IEEE infinities or NaN (the `fillna`-based demographic
  percentages), the result type `PFloat` models finite values,
  +inf, -inf and NaN explicitly.
* pandas `.sum()` uses skipna semantics: missing entries are dropped
  from the sum (an all-missing sum is 0).
* Census API cells are strings; `pd.to_numeric(..., errors="coerce")`
  is modelled on a `Cell` type that records whether the string parses
  to a number.
-/
import Mathlib

namespace HousingCommute

/-- A raw cell as delivered by an upstream CSV / JSON source: either a
string that parses to a number (with its exact value), a string that
does not parse to a number (e.g. Zillow's "MA"), or an already-missing
value. -/
inductive Cell where
  | num (q : ℚ)
  | str (s : String)
  | na
deriving DecidableEq

/-- Behaviour of `pd.to_numeric(x, errors="coerce")` on one cell: numeric strings
parse to their value, non-numeric strings and missing cells become NaN
(`none`).  Note that a numeric string such as "-666666666" parses
successfully: `errors="coerce"` does NOT turn sentinels into NaN. -/
def toNumericCoerce : Cell → Option ℚ
  | Cell.num q => some q
  | Cell.str _ => none
  | Cell.na => none

/-- NA-propagating addition (pandas `+` on nullable values). -/
def naAdd (a b : Option ℚ) : Option ℚ :=
  match a, b with
  | some x, some y => some (x + y)
  | _, _ => none

/-- NA-propagating multiplication (pandas `*` on nullable values). -/
def naMul (a b : Option ℚ) : Option ℚ :=
  match a, b with
  | some x, some y => some (x * y)
  | _, _ => none

/-- NA-propagating division.  In every source code path that uses this
function the divisor has already been routed through `replace0` /
`maskNeg`, so a divisor of `some 0` never occurs; the `some 0` branch
is therefore unreachable and modelled by `none`. -/
def naDiv (a b : Option ℚ) : Option ℚ :=
  match a, b with
  | some x, some y => if y = 0 then none else some (x / y)
  | _, _ => none

/-- pandas `.sum()` with default `skipna=True`: missing entries are
dropped; the sum of an all-missing column is 0. -/
def skipnaSum (xs : List (Option ℚ)) : ℚ :=
  (xs.filterMap id).sum

/-- Behaviour of `Series.replace(0, pd.NA)` on one value (acs.py lines 222, 255,
267, 282, 287). -/
def replace0 (v : Option ℚ) : Option ℚ :=
  if v = some 0 then none else v

/-- Behaviour of `features.loc[features[col] < 0, col] = pd.NA` on one value
(acs.py lines 208-209): negative values become missing; missing stays
missing (`NaN < 0` is False in pandas, so NaN rows are untouched). -/
def maskNeg (v : Option ℚ) : Option ℚ :=
  match v with
  | some q => if q < 0 then none else some q
  | none => none

/-- The population-weighted mean helper of
`aggregate_demographics_to_zcta` (demographics.py lines 204-209):

    weights = group["total_pop"]; values = group[value_col]
    return (values * weights).sum() / weights.sum() if weights.sum() > 0 else 0

A group member is a pair (value, population), both nullable.  The
numerator `(values * weights).sum()` multiplies elementwise (NA
propagates) and then sums with skipna, so a member with a missing
value or missing weight contributes nothing to the numerator; the
denominator `weights.sum()` skips only missing weights. -/
def weighted_mean (g : List (Option ℚ × Option ℚ)) : ℚ :=
  let num := skipnaSum (g.map fun p => naMul p.1 p.2)
  let den := skipnaSum (g.map fun p => p.2)
  if 0 < den then num / den else 0

/-- pandas `groupby(...).agg("mean")` on one group of a nullable
column (build.py lines 135-159, e.g. `"rent_to_income": "mean"`):
the unweighted arithmetic mean of the non-missing values, missing if
every value is missing. -/
def groupby_mean (xs : List (Option ℚ)) : Option ℚ :=
  let v := xs.filterMap id
  if v = [] then none else some (v.sum / v.length)

/-- pandas `Series.quantile(q)` with the default linear interpolation,
computed over the non-missing values supplied in `xs`
(demographics.py lines 248-249).  With `s` the ascending sort of `xs`
of length `n = m + 1`, the quantile sits at fractional position
`pos = q * m`; it is `s[i] + (pos - i) * (s[i+1] - s[i])` for
`i = ⌊pos⌋`.  An empty input yields NaN (`none`). -/
def quantileLinear (q : ℚ) (xs : List ℚ) : Option ℚ :=
  let s := List.insertionSort (· ≤ ·) xs
  if s.length = 0 then none
  else
    let m : ℕ := s.length - 1
    let pos : ℚ := q * m
    let i : ℕ := (⌊pos⌋).toNat
    let frac : ℚ := pos - (i : ℚ)
    if i + 1 ≤ m then
      some (s.getD i 0 + frac * (s.getD (i+1) 0 - s.getD i 0))
    else
      some (s.getD m 0)

/-- The three income segment labels of `create_income_segments`. -/
inductive Segment where
  | Low
  | Medium
  | High
deriving DecidableEq

/-- Position of a segment in the ordering Low ≤ Medium ≤ High. -/
def segRank : Segment → ℕ
  | Segment.Low => 0
  | Segment.Medium => 1
  | Segment.High => 2

/-- pandas `income < q` where the cut point `q` may be NaN:
a comparison against NaN is False. -/
def naLtB (x : ℚ) (c : Option ℚ) : Bool :=
  match c with
  | some q => decide (x < q)
  | none => false

/-- pandas `income <= q` where the cut point `q` may be NaN. -/
def naLeB (x : ℚ) (c : Option ℚ) : Bool :=
  match c with
  | some q => decide (x ≤ q)
  | none => false

/-- The inner `assign_segment` closure of `create_income_segments`
(demographics.py lines 252-260):

    if pd.isna(income): return None
    elif income < q25: return "Low"
    elif income <= q75: return "Medium"
    else: return "High"
-/
def assign_segment (q25 q75 : Option ℚ) : Option ℚ → Option Segment
  | none => none
  | some income =>
      if naLtB income q25 then some Segment.Low
      else if naLeB income q75 then some Segment.Medium
      else some Segment.High

/-- The function `create_income_segments` (demographics.py lines 228-271) restricted
to the `median_income` column: compute the 0.25 and 0.75 quantiles of
the non-null incomes, then label every row with `assign_segment`.
(The subsequent `pd.Categorical` conversion maps the produced labels
to themselves, so it is the identity on this column's information.) -/
def create_income_segments (incomes : List (Option ℚ)) : List (Option Segment) :=
  let xs := incomes.filterMap id
  let q25 := quantileLinear (1/4) xs
  let q75 := quantileLinear (3/4) xs
  incomes.map (assign_segment q25 q75)

/-- A pandas float value as it can actually occur in
`compute_demographic_percentages`: finite, +inf, -inf, or NaN. -/
inductive PFloat where
  | fin (q : ℚ)
  | pinf
  | ninf
  | nan
deriving DecidableEq

/-- IEEE-style division as performed by pandas on float columns:
`x / 0` is ±inf for `x ≠ 0` and NaN for `x = 0`; any NaN operand
propagates. -/
def pdDiv (a b : Option ℚ) : PFloat :=
  match a, b with
  | some x, some y =>
      if y = 0 then
        if x = 0 then PFloat.nan
        else if 0 < x then PFloat.pinf
        else PFloat.ninf
      else PFloat.fin (x / y)
  | _, _ => PFloat.nan

/-- Multiplication by the positive constant 100 on a pandas float. -/
def pdMul100 : PFloat → PFloat
  | PFloat.fin q => PFloat.fin (q * 100)
  | PFloat.pinf => PFloat.pinf
  | PFloat.ninf => PFloat.ninf
  | PFloat.nan => PFloat.nan

/-- Pandas `.fillna(0)`: NaN becomes 0; infinities are NOT filled. -/
def fillna0 : PFloat → PFloat
  | PFloat.nan => PFloat.fin 0
  | x => x

/-- One percentage column of `compute_demographic_percentages`
(demographics.py lines 164-168):

    result["pct_X"] = (result["X"] / result["total_pop"] * 100).fillna(0)
-/
def pct_of_total (count total_pop : Option ℚ) : PFloat :=
  fillna0 (pdMul100 (pdDiv count total_pop))

/-- A tract-level demographic row as consumed by
`aggregate_demographics_to_zcta`: the population weight and the
rate/percentage/income value columns.  Values are nullable; the
aggregation claims considered here concern finite values and NA, so
nullable rationals model the pandas column.  Note that
`fetch_demographics_for_county` applies only
`pd.to_numeric(..., errors="coerce")` (demographics.py line 122):
unlike acs.py lines 208-209, there is NO negative-sentinel mask in the
demographics pipeline, so `median_income` here is
`toNumericCoerce` of the raw cell, sentinel included. -/
structure DemoPctRow where
  total_pop : Option ℚ
  pct_hispanic : Option ℚ
  pct_white : Option ℚ
  pct_black : Option ℚ
  pct_asian : Option ℚ
  pct_other : Option ℚ
  median_income : Option ℚ
deriving DecidableEq

/-- One aggregated reporting-area row produced by
`aggregate_demographics_to_zcta` (demographics.py lines 211-223) from
the group of tract rows sharing one ZCTA key: population sums, every
other field is `weighted_mean` with `total_pop` as weight.  The
output columns are plain floats: `weighted_mean` always returns a
number (0 when the weight sum is not positive), never NA. -/
structure ZctaDemoRow where
  total_pop : ℚ
  pct_hispanic : ℚ
  pct_white : ℚ
  pct_black : ℚ
  pct_asian : ℚ
  pct_other : ℚ
  median_income : ℚ
deriving DecidableEq

/-- The function `aggregate_demographics_to_zcta`, per group (the `lambda group:`
body at demographics.py lines 212-221). -/
def aggregate_demographics_group (g : List DemoPctRow) : ZctaDemoRow :=
  { total_pop := skipnaSum (g.map (·.total_pop))
    pct_hispanic := weighted_mean (g.map fun r => (r.pct_hispanic, r.total_pop))
    pct_white := weighted_mean (g.map fun r => (r.pct_white, r.total_pop))
    pct_black := weighted_mean (g.map fun r => (r.pct_black, r.total_pop))
    pct_asian := weighted_mean (g.map fun r => (r.pct_asian, r.total_pop))
    pct_other := weighted_mean (g.map fun r => (r.pct_other, r.total_pop))
    median_income := weighted_mean (g.map fun r => (r.median_income, r.total_pop)) }

/-- A raw ACS tract row after `fetch_acs_for_county`'s
`pd.to_numeric(..., errors="coerce")` (acs.py lines 151-152): every
numeric column is a nullable rational. -/
structure AcsRaw where
  median_rent : Option ℚ
  median_income : Option ℚ
  ttw_total : Option ℚ
  ttw_lt5 : Option ℚ
  ttw_5_9 : Option ℚ
  ttw_10_14 : Option ℚ
  ttw_15_19 : Option ℚ
  ttw_20_24 : Option ℚ
  ttw_25_29 : Option ℚ
  ttw_30_34 : Option ℚ
  ttw_35_39 : Option ℚ
  ttw_40_44 : Option ℚ
  ttw_45_59 : Option ℚ
  ttw_60_89 : Option ℚ
  ttw_90_plus : Option ℚ
  mode_total : Option ℚ
  mode_car_alone : Option ℚ
  mode_carpool : Option ℚ
  mode_transit : Option ℚ
  mode_walk : Option ℚ
  mode_wfh : Option ℚ
  rent_burden_total : Option ℚ
  rent_burden_30_34 : Option ℚ
  rent_burden_35_39 : Option ℚ
  rent_burden_40_49 : Option ℚ
  rent_burden_50_plus : Option ℚ
  tenure_total : Option ℚ
  tenure_renter : Option ℚ
  vehicles_total : Option ℚ
  vehicles_none : Option ℚ
  vehicles_1 : Option ℚ
  vehicles_2_plus : Option ℚ
deriving DecidableEq

/-- The sentinel mask of `compute_acs_features` (acs.py lines
195-209): every numeric column has its negative values replaced by
NA. -/
def maskAcsRow (r : AcsRaw) : AcsRaw :=
  { median_rent := maskNeg r.median_rent
    median_income := maskNeg r.median_income
    ttw_total := maskNeg r.ttw_total
    ttw_lt5 := maskNeg r.ttw_lt5
    ttw_5_9 := maskNeg r.ttw_5_9
    ttw_10_14 := maskNeg r.ttw_10_14
    ttw_15_19 := maskNeg r.ttw_15_19
    ttw_20_24 := maskNeg r.ttw_20_24
    ttw_25_29 := maskNeg r.ttw_25_29
    ttw_30_34 := maskNeg r.ttw_30_34
    ttw_35_39 := maskNeg r.ttw_35_39
    ttw_40_44 := maskNeg r.ttw_40_44
    ttw_45_59 := maskNeg r.ttw_45_59
    ttw_60_89 := maskNeg r.ttw_60_89
    ttw_90_plus := maskNeg r.ttw_90_plus
    mode_total := maskNeg r.mode_total
    mode_car_alone := maskNeg r.mode_car_alone
    mode_carpool := maskNeg r.mode_carpool
    mode_transit := maskNeg r.mode_transit
    mode_walk := maskNeg r.mode_walk
    mode_wfh := maskNeg r.mode_wfh
    rent_burden_total := maskNeg r.rent_burden_total
    rent_burden_30_34 := maskNeg r.rent_burden_30_34
    rent_burden_35_39 := maskNeg r.rent_burden_35_39
    rent_burden_40_49 := maskNeg r.rent_burden_40_49
    rent_burden_50_plus := maskNeg r.rent_burden_50_plus
    tenure_total := maskNeg r.tenure_total
    tenure_renter := maskNeg r.tenure_renter
    vehicles_total := maskNeg r.vehicles_total
    vehicles_none := maskNeg r.vehicles_none
    vehicles_1 := maskNeg r.vehicles_1
    vehicles_2_plus := maskNeg r.vehicles_2_plus }

/-- The derived columns added by `compute_acs_features`. -/
structure AcsFeatures where
  rent_to_income : Option ℚ
  pct_commute_lt10 : Option ℚ
  pct_commute_10_19 : Option ℚ
  pct_commute_20_29 : Option ℚ
  pct_commute_30_44 : Option ℚ
  pct_commute_45_59 : Option ℚ
  pct_commute_60_plus : Option ℚ
  long45_share : Option ℚ
  long60_share : Option ℚ
  commute_min_proxy : Option ℚ
  pct_drive_alone : Option ℚ
  pct_carpool : Option ℚ
  pct_transit : Option ℚ
  pct_walk : Option ℚ
  pct_wfh : Option ℚ
  pct_car : Option ℚ
  pct_rent_burden_30 : Option ℚ
  pct_rent_burden_50 : Option ℚ
  renter_share : Option ℚ
  pct_no_vehicle : Option ℚ
  vehicle_access : Option ℚ
deriving DecidableEq

/-- The function `compute_acs_features` (acs.py lines 161-294) on one tract row:
mask negative sentinels, then derive each ratio.  `rent_to_income` is
computed only where `median_income > 0` and `median_rent > 0` (lines
213-218); every other ratio divides by its universe count routed
through `replace(0, pd.NA)`, so NA propagates instead of a zero
division. -/
def compute_acs_features (raw : AcsRaw) : AcsFeatures :=
  let r := maskAcsRow raw
  let total_workers := replace0 r.ttw_total
  let mode_total := replace0 r.mode_total
  let rent_burden_total := replace0 r.rent_burden_total
  let tenure_total := replace0 r.tenure_total
  let vehicles_total := replace0 r.vehicles_total
  let rent_to_income :=
    match r.median_income, r.median_rent with
    | some inc, some rent =>
        if 0 < inc ∧ 0 < rent then some (rent / (inc / 12)) else none
    | _, _ => none
  let pct_commute_45_59 := naMul (naDiv r.ttw_45_59 total_workers) (some 100)
  let pct_commute_60_plus :=
    naMul (naDiv (naAdd r.ttw_60_89 r.ttw_90_plus) total_workers) (some 100)
  let pct_drive_alone := naMul (naDiv r.mode_car_alone mode_total) (some 100)
  let pct_carpool := naMul (naDiv r.mode_carpool mode_total) (some 100)
  { rent_to_income := rent_to_income
    pct_commute_lt10 :=
      naMul (naDiv (naAdd r.ttw_lt5 r.ttw_5_9) total_workers) (some 100)
    pct_commute_10_19 :=
      naMul (naDiv (naAdd r.ttw_10_14 r.ttw_15_19) total_workers) (some 100)
    pct_commute_20_29 :=
      naMul (naDiv (naAdd r.ttw_20_24 r.ttw_25_29) total_workers) (some 100)
    pct_commute_30_44 :=
      naMul (naDiv (naAdd (naAdd r.ttw_30_34 r.ttw_35_39) r.ttw_40_44)
        total_workers) (some 100)
    pct_commute_45_59 := pct_commute_45_59
    pct_commute_60_plus := pct_commute_60_plus
    long45_share := naDiv (naAdd pct_commute_45_59 pct_commute_60_plus) (some 100)
    long60_share := naDiv pct_commute_60_plus (some 100)
    commute_min_proxy :=
      naDiv
        (naAdd (naMul r.ttw_lt5 (some (5/2)))
          (naAdd (naMul r.ttw_5_9 (some 7))
            (naAdd (naMul r.ttw_10_14 (some 12))
              (naAdd (naMul r.ttw_15_19 (some 17))
                (naAdd (naMul r.ttw_20_24 (some 22))
                  (naAdd (naMul r.ttw_25_29 (some 27))
                    (naAdd (naMul r.ttw_30_34 (some 32))
                      (naAdd (naMul r.ttw_35_39 (some 37))
                        (naAdd (naMul r.ttw_40_44 (some 42))
                          (naAdd (naMul r.ttw_45_59 (some 52))
                            (naAdd (naMul r.ttw_60_89 (some 75))
                              (naMul r.ttw_90_plus (some 100)))))))))))))
        total_workers
    pct_drive_alone := pct_drive_alone
    pct_carpool := pct_carpool
    pct_transit := naMul (naDiv r.mode_transit mode_total) (some 100)
    pct_walk := naMul (naDiv r.mode_walk mode_total) (some 100)
    pct_wfh := naMul (naDiv r.mode_wfh mode_total) (some 100)
    pct_car := naAdd pct_drive_alone pct_carpool
    pct_rent_burden_30 :=
      naMul
        (naDiv
          (naAdd (naAdd (naAdd r.rent_burden_30_34 r.rent_burden_35_39)
            r.rent_burden_40_49) r.rent_burden_50_plus)
          rent_burden_total) (some 100)
    pct_rent_burden_50 :=
      naMul (naDiv r.rent_burden_50_plus rent_burden_total) (some 100)
    renter_share := naMul (naDiv r.tenure_renter tenure_total) (some 100)
    pct_no_vehicle := naMul (naDiv r.vehicles_none vehicles_total) (some 100)
    vehicle_access :=
      naMul (naDiv (naAdd r.vehicles_1 r.vehicles_2_plus) vehicles_total)
        (some 100) }

/-- Python `str.zfill(n)` (build.py line 170, spatial.py lines 88-90, zori.py
line 41): left-pad with '0' characters to length `n`. -/
def zfill (n : ℕ) (s : String) : String :=
  String.mk (List.replicate (n - s.data.length) '0' ++ s.data)

/-- A census tract as seen by `tract_to_zcta_centroid_map`: its GEOID
and its (projected-then-reprojected) centroid point. -/
structure Tract where
  geoid : String
  centroid : ℚ × ℚ

/-- A ZCTA polygon as seen by the spatial join: its identifier and its
point-containment predicate (the `predicate="within"` test of
`gpd.sjoin`).  The polygon itself is abstracted to the predicate; the
geometry claims considered here constrain only containment. -/
structure Zcta where
  zcta5ce : String
  contains : ℚ × ℚ → Bool

/-- The inner spatial join of `tract_to_zcta_centroid_map` (spatial.py
lines 79-84): one output pair (GEOID, ZCTA5CE) for every tract whose
centroid is within a ZCTA polygon, one pair per such polygon. -/
def sjoin_within (tracts : List Tract) (zctas : List Zcta) : List (String × String) :=
  tracts.flatMap fun t =>
    (zctas.filter fun z => z.contains t.centroid).map fun z => (t.geoid, z.zcta5ce)

/-- The function `tract_to_zcta_centroid_map` (spatial.py lines 48-92): spatial
join, `drop_duplicates()` on the (GEOID, ZCTA5CE) pairs, then zero-pad
the ZCTA identifier to five characters. -/
def tract_to_zcta_centroid_map (tracts : List Tract) (zctas : List Zcta) :
    List (String × String) :=
  ((sjoin_within tracts zctas).dedup).map fun p => (p.1, zfill 5 p.2)

/-- The reporting-area polygons are pairwise non-overlapping: no point
is contained in two distinct entries of the ZCTA table (the assumption
named by the spec for the centroid join). -/
def PairwiseNonOverlapping (zctas : List Zcta) : Prop :=
  zctas.Pairwise fun z1 z2 => ∀ p, ¬(z1.contains p = true ∧ z2.contains p = true)

/-- pandas `left.merge(right, on=key, how="left")` (build.py lines
198-220) over association lists: every left row is kept; it is
replicated once per matching right row, or kept once with a missing
payload when the right table has no match. -/
def left_merge {α β : Type} (left : List (String × α)) (right : List (String × β)) :
    List (String × α × Option β) :=
  left.flatMap fun la =>
    match right.filter fun rb => rb.1 = la.1 with
    | [] => [(la.1, la.2, none)]
    | m :: ms => (m :: ms).map fun rb => (la.1, la.2, some rb.2)

/-- The step-7 merge chain of `build_final_dataset` (build.py lines
197-220): left-join the demographics, ZORI, transit-density and area
tables onto the aggregated commute table, all keyed on ZCTA5CE. -/
def build_final_merge {α β γ δ ε : Type}
    (agg : List (String × α)) (demo : List (String × β))
    (zori : List (String × γ)) (transit : List (String × δ))
    (area : List (String × ε)) :
    List (String × (((α × Option β) × Option γ) × Option δ) × Option ε) :=
  left_merge (left_merge (left_merge (left_merge agg demo) zori) transit) area

/-- Strict lexicographic comparison on character lists — the order
Python/pandas use on strings in `sort_values`. -/
def lexLtB : List Char → List Char → Bool
  | [], [] => false
  | [], _ :: _ => true
  | _ :: _, [] => false
  | a :: as, b :: bs => if a < b then true else if b < a then false else lexLtB as bs

/-- Non-strict lexicographic comparison on character lists. -/
def lexLeB : List Char → List Char → Bool
  | [], _ => true
  | _ :: _, [] => false
  | a :: as, b :: bs => if a < b then true else if b < a then false else lexLeB as bs

/-- One tidy ZORI observation: zero-padded zip, period string, parsed
rent-index value. -/
abbrev ZoriRow : Type := String × String × ℚ

/-- The `sort_values(["zip", "period"])` ordering of zori.py line 76:
by zip, then by period, both as strings. -/
def zoriRowLe (a b : ZoriRow) : Prop :=
  lexLtB a.1.data b.1.data = true ∨ (a.1 = b.1 ∧ lexLeB a.2.1.data b.2.1.data = true)

instance : DecidablePred (fun p : ZoriRow × ZoriRow => zoriRowLe p.1 p.2) :=
  fun _ => by unfold zoriRowLe; infer_instance

instance (a b : ZoriRow) : Decidable (zoriRowLe a b) := by
  unfold zoriRowLe; infer_instance

/-- Behaviour of `groupby("zip").tail(1)` on a zip-sorted frame (zori.py lines
74-79): keep a row exactly when the next row belongs to a different
zip, i.e. keep the last row of each contiguous zip run. -/
def keepLast : List ZoriRow → List ZoriRow
  | [] => []
  | [r] => [r]
  | r :: s :: t => if r.1 = s.1 then keepLast (s :: t) else r :: keepLast (s :: t)

/-- The melt step of `fetch_zori_latest` (zori.py lines 41-60):
zero-pad each zip, then emit one long row per (zip row, date column)
cell.  (pandas `melt` enumerates column-major; the subsequent sort
makes the enumeration order immaterial to the properties proved here.) -/
def meltZori (wide : List (String × List (String × Cell))) :
    List (String × String × Cell) :=
  wide.flatMap fun r => r.2.map fun pc => (zfill 5 r.1, pc.1, pc.2)

/-- The two `dropna` passes around `pd.to_numeric(..., errors="coerce")`
(zori.py lines 66-70): keep exactly the observations whose cell parses
to a (non-null) number. -/
def zoriParsed (wide : List (String × List (String × Cell))) : List ZoriRow :=
  (meltZori wide).filterMap fun t =>
    match toNumericCoerce t.2.2 with
    | some q => some (t.1, t.2.1, q)
    | none => none

/-- The function `fetch_zori_latest` (zori.py lines 54-85): melt to long format,
drop unparseable/missing values, sort by (zip, period), keep the last
row per zip. -/
def fetch_zori_latest (wide : List (String × List (String × Cell))) : List ZoriRow :=
  keepLast (List.insertionSort zoriRowLe (zoriParsed wide))

/-- A denominator that the spec calls degenerate: missing, or ≤ 0. -/
def DenomBad (v : Option ℚ) : Prop :=
  v = none ∨ ∃ q, v = some q ∧ q ≤ 0

/-- A one-tract sample for exercising the spatial join concretely. -/
def sampleTracts : List Tract :=
  [{ geoid := "t1", centroid := (0, 0) }]

/-- Two non-overlapping sample reporting areas (half-planes split at
x = 1). -/
def sampleZctas : List Zcta :=
  [{ zcta5ce := "101", contains := fun p => decide (p.1 < 1) },
   { zcta5ce := "202", contains := fun p => decide (1 ≤ p.1) }]

/-- A two-zip sample rent-index table: zip 123 has two parseable
months and one "MA" month; zip 45 has one missing and one parseable
month. -/
def sampleZoriWide : List (String × List (String × Cell)) :=
  [("123", [("2024-01", Cell.num 100), ("2024-02", Cell.num 110),
            ("2024-03", Cell.str "MA")]),
   ("45", [("2024-01", Cell.na), ("2024-02", Cell.num 90)])]

@[simp] theorem naAdd_none_left (b : Option ℚ) : naAdd none b = none := rfl

@[simp] theorem naAdd_none_right (a : Option ℚ) : naAdd a none = none := by
  cases a <;> rfl

@[simp] theorem naMul_none_left (b : Option ℚ) : naMul none b = none := rfl

@[simp] theorem naMul_none_right (a : Option ℚ) : naMul a none = none := by
  cases a <;> rfl

@[simp] theorem naDiv_none_right (a : Option ℚ) : naDiv a none = none := by
  cases a <;> rfl

@[simp] theorem naDiv_none_left (b : Option ℚ) : naDiv none b = none := by
  cases b <;> rfl

/-- A degenerate denominator is annihilated by the sentinel mask
followed by `replace(0, pd.NA)`. -/
theorem replace0_maskNeg_of_denomBad {v : Option ℚ} (h : DenomBad v) :
    replace0 (maskNeg v) = none := by
  rcases h with h | ⟨q, rfl, hq⟩
  · subst h; rfl
  · rcases lt_or_eq_of_le hq with hlt | rfl
    · simp [maskNeg, replace0, hlt]
    · simp [maskNeg, replace0]

theorem skipnaSum_nil : skipnaSum [] = 0 := rfl

theorem skipnaSum_cons (x : Option ℚ) (xs : List (Option ℚ)) :
    skipnaSum (x :: xs) = x.getD 0 + skipnaSum xs := by
  cases x <;> simp [skipnaSum]

/-- With every weight present, the skipna weight sum is the plain sum
of the weights. -/
theorem skipnaSum_weights (g : List (Option ℚ × Option ℚ))
    (hw : ∀ p ∈ g, p.2.isSome) :
    skipnaSum (g.map fun p => p.2) = (g.map fun p => p.2.getD 0).sum := by
  induction g with
  | nil => rfl
  | cons p t ih =>
      have hp := hw p (List.mem_cons_self p t)
      have ht : ∀ q ∈ t, q.2.isSome := fun q hq => hw q (List.mem_cons_of_mem p hq)
      rcases Option.isSome_iff_exists.mp hp with ⟨w, hw2⟩
      simp [skipnaSum_cons, ih ht, hw2]

/-- With every weight present, the skipna numerator sum is the plain
sum where a missing value contributes `0 * w`. -/
theorem skipnaSum_num (g : List (Option ℚ × Option ℚ))
    (hw : ∀ p ∈ g, p.2.isSome) :
    skipnaSum (g.map fun p => naMul p.1 p.2) =
      (g.map fun p => p.1.getD 0 * p.2.getD 0).sum := by
  induction g with
  | nil => rfl
  | cons p t ih =>
      have hp := hw p (List.mem_cons_self p t)
      have ht : ∀ q ∈ t, q.2.isSome := fun q hq => hw q (List.mem_cons_of_mem p hq)
      rcases Option.isSome_iff_exists.mp hp with ⟨w, hw2⟩
      cases hv : p.1 with
      | none =>
          simp only [List.map_cons, skipnaSum_cons, ih ht]
          rw [hv, hw2]
          simp [naMul]
      | some v =>
          simp only [List.map_cons, skipnaSum_cons, ih ht]
          rw [hv, hw2]
          simp [naMul]

/-- The helper `weighted_mean` in closed form when every weight is present and
the total weight is positive. -/
theorem weighted_mean_eq (g : List (Option ℚ × Option ℚ))
    (hw : ∀ p ∈ g, p.2.isSome)
    (hpos : 0 < (g.map fun p => p.2.getD 0).sum) :
    weighted_mean g =
      (g.map fun p => p.1.getD 0 * p.2.getD 0).sum /
        (g.map fun p => p.2.getD 0).sum := by
  unfold weighted_mean
  rw [skipnaSum_weights g hw, skipnaSum_num g hw, if_pos hpos]

/-- Members with a missing value contribute exactly `0` to the
numerator: the plain numerator sum equals the sum restricted to
members whose value is present. -/
theorem num_sum_eq_filter (g : List (Option ℚ × Option ℚ)) :
    (g.map fun p => p.1.getD 0 * p.2.getD 0).sum =
      ((g.filter fun p => p.1.isSome).map fun p => p.1.getD 0 * p.2.getD 0).sum := by
  induction g with
  | nil => rfl
  | cons p t ih =>
      cases hv : p.1 with
      | none => simp [hv, List.filter_cons, ih]
      | some v => simp [hv, List.filter_cons, ih]

theorem lexLtB_irrefl (a : List Char) : lexLtB a a = false := by
  induction a with
  | nil => rfl
  | cons c t ih => simp [lexLtB, ih]

theorem lexLeB_refl (a : List Char) : lexLeB a a = true := by
  induction a with
  | nil => rfl
  | cons c t ih => simp [lexLeB, ih]

theorem lexLtB_trans : ∀ {a b c : List Char},
    lexLtB a b = true → lexLtB b c = true → lexLtB a c = true := by
  intro a
  induction a with
  | nil =>
      intro b c hab hbc
      cases b with
      | nil => simp [lexLtB] at hab
      | cons y ys =>
          cases c with
          | nil => simp [lexLtB] at hbc
          | cons z zs => simp [lexLtB]
  | cons x xs ih =>
      intro b c hab hbc
      cases b with
      | nil => simp [lexLtB] at hab
      | cons y ys =>
          cases c with
          | nil => simp [lexLtB] at hbc
          | cons z zs =>
              simp only [lexLtB] at hab hbc ⊢
              by_cases h1 : x < y
              · by_cases h2 : y < z
                · simp [lt_trans h1 h2]
                · rw [if_neg h2] at hbc
                  by_cases h3 : z < y
                  · simp [h3] at hbc
                  · have hyz : y = z := le_antisymm (le_of_not_lt h3) (le_of_not_lt h2)
                    subst hyz
                    simp [h1]
              · rw [if_neg h1] at hab
                by_cases h1' : y < x
                · simp [h1'] at hab
                · have hxy : x = y := le_antisymm (le_of_not_lt h1') (le_of_not_lt h1)
                  subst hxy
                  rw [if_neg h1'] at hab
                  by_cases h2 : x < z
                  · simp [h2]
                  · rw [if_neg h2] at hbc
                    by_cases h3 : z < x
                    · simp [h3] at hbc
                    · rw [if_neg h3] at hbc
                      simp [h2, h3, ih hab hbc]

theorem lexLeB_trans : ∀ {a b c : List Char},
    lexLeB a b = true → lexLeB b c = true → lexLeB a c = true := by
  intro a
  induction a with
  | nil => intro b c _ _; rfl
  | cons x xs ih =>
      intro b c hab hbc
      cases b with
      | nil => simp [lexLeB] at hab
      | cons y ys =>
          cases c with
          | nil => simp [lexLeB] at hbc
          | cons z zs =>
              simp only [lexLeB] at hab hbc ⊢
              by_cases h1 : x < y
              · by_cases h2 : y < z
                · simp [lt_trans h1 h2]
                · rw [if_neg h2] at hbc
                  by_cases h3 : z < y
                  · simp [h3] at hbc
                  · have hyz : y = z := le_antisymm (le_of_not_lt h3) (le_of_not_lt h2)
                    subst hyz
                    simp [h1]
              · rw [if_neg h1] at hab
                by_cases h1' : y < x
                · simp [h1'] at hab
                · have hxy : x = y := le_antisymm (le_of_not_lt h1') (le_of_not_lt h1)
                  subst hxy
                  rw [if_neg h1'] at hab
                  by_cases h2 : x < z
                  · simp [h2]
                  · rw [if_neg h2] at hbc
                    by_cases h3 : z < x
                    · simp [h3] at hbc
                    · rw [if_neg h3] at hbc
                      simp [h2, h3, ih hab hbc]

theorem lexLeB_total : ∀ (a b : List Char),
    lexLeB a b = true ∨ lexLeB b a = true := by
  intro a
  induction a with
  | nil => intro b; left; rfl
  | cons x xs ih =>
      intro b
      cases b with
      | nil => right; rfl
      | cons y ys =>
          simp only [lexLeB]
          rcases lt_trichotomy x y with h | h | h
          · left; simp [h]
          · subst h
            rcases ih ys with h2 | h2
            · left; simp [lt_irrefl, h2]
            · right; simp [lt_irrefl, h2]
          · right; simp [h]

theorem lexLtB_trichotomy : ∀ (a b : List Char),
    lexLtB a b = true ∨ lexLtB b a = true ∨ a = b := by
  intro a
  induction a with
  | nil =>
      intro b
      cases b with
      | nil => right; right; rfl
      | cons y ys => left; rfl
  | cons x xs ih =>
      intro b
      cases b with
      | nil => right; left; rfl
      | cons y ys =>
          rcases lt_trichotomy x y with h | h | h
          · left; simp [lexLtB, h]
          · subst h
            rcases ih ys with h2 | h2 | h2
            · left; simp [lexLtB, lt_irrefl, h2]
            · right; left; simp [lexLtB, lt_irrefl, h2]
            · right; right; rw [h2]
          · right; left; simp [lexLtB, h]

theorem lexLtB_leB_trans : ∀ {a b c : List Char},
    lexLtB a b = true → lexLeB b c = true → lexLtB a c = true := by
  intro a
  induction a with
  | nil =>
      intro b c hab hbc
      cases b with
      | nil => simp [lexLtB] at hab
      | cons y ys =>
          cases c with
          | nil => simp [lexLeB] at hbc
          | cons z zs => simp [lexLtB]
  | cons x xs ih =>
      intro b c hab hbc
      cases b with
      | nil => simp [lexLtB] at hab
      | cons y ys =>
          cases c with
          | nil => simp [lexLeB] at hbc
          | cons z zs =>
              simp only [lexLtB] at hab ⊢
              simp only [lexLeB] at hbc
              by_cases h1 : x < y
              · by_cases h2 : y < z
                · simp [lt_trans h1 h2]
                · rw [if_neg h2] at hbc
                  by_cases h3 : z < y
                  · simp [h3] at hbc
                  · have hyz : y = z := le_antisymm (le_of_not_lt h3) (le_of_not_lt h2)
                    subst hyz
                    simp [h1]
              · rw [if_neg h1] at hab
                by_cases h1' : y < x
                · simp [h1'] at hab
                · have hxy : x = y := le_antisymm (le_of_not_lt h1') (le_of_not_lt h1)
                  subst hxy
                  rw [if_neg h1'] at hab
                  by_cases h2 : x < z
                  · simp [h2]
                  · rw [if_neg h2] at hbc
                    by_cases h3 : z < x
                    · simp [h3] at hbc
                    · rw [if_neg h3] at hbc
                      simp [h2, h3, ih hab hbc]

theorem zoriRowLe_isTotal : IsTotal ZoriRow zoriRowLe := by
  constructor
  intro a b
  rcases lexLtB_trichotomy a.1.data b.1.data with h | h | h
  · exact Or.inl (Or.inl h)
  · exact Or.inr (Or.inl h)
  · have hz : a.1 = b.1 := String.ext h
    rcases lexLeB_total a.2.1.data b.2.1.data with h2 | h2
    · exact Or.inl (Or.inr ⟨hz, h2⟩)
    · exact Or.inr (Or.inr ⟨hz.symm, h2⟩)

theorem zoriRowLe_isTrans : IsTrans ZoriRow zoriRowLe := by
  constructor
  intro a b c hab hbc
  rcases hab with h1 | ⟨hz1, hp1⟩
  · rcases hbc with h2 | ⟨hz2, hp2⟩
    · exact Or.inl (lexLtB_trans h1 h2)
    · exact Or.inl (by rw [← congrArg String.data hz2]; exact h1)
  · rcases hbc with h2 | ⟨hz2, hp2⟩
    · exact Or.inl (by rw [congrArg String.data hz1]; exact h2)
    · exact Or.inr ⟨hz1.trans hz2, lexLeB_trans hp1 hp2⟩

/-- For rows with the same zip, the sort order compares periods. -/
theorem zoriRowLe_period {a b : ZoriRow} (h : zoriRowLe a b) (hz : a.1 = b.1) :
    lexLeB a.2.1.data b.2.1.data = true := by
  rcases h with h | ⟨_, hp⟩
  · rw [hz] at h
    rw [lexLtB_irrefl] at h
    exact absurd h (by simp)
  · exact hp

/-- The sort order on zips: strictly less, or equal. -/
theorem zoriRowLe_zip {a b : ZoriRow} (h : zoriRowLe a b) :
    lexLtB a.1.data b.1.data = true ∨ a.1 = b.1 := by
  rcases h with h | ⟨hz, _⟩
  · exact Or.inl h
  · exact Or.inr hz

theorem keepLast_subset : ∀ (l : List ZoriRow), ∀ x ∈ keepLast l, x ∈ l := by
  intro l
  induction l with
  | nil => intro x hx; exact absurd hx (by simp [keepLast])
  | cons r t ih =>
      cases t with
      | nil => intro x hx; exact hx
      | cons s t' =>
          intro x hx
          rw [keepLast] at hx
          by_cases hrs : r.1 = s.1
          · rw [if_pos hrs] at hx
            exact List.mem_cons_of_mem r (ih x hx)
          · rw [if_neg hrs] at hx
            rcases List.mem_cons.mp hx with h | h
            · exact h ▸ List.mem_cons_self x _
            · exact List.mem_cons_of_mem r (ih x h)

/-- Every row of a zip-sorted list has a representative in
`keepLast`: same zip, period at least as large. -/
theorem keepLast_represents : ∀ (l : List ZoriRow), l.Pairwise zoriRowLe →
    ∀ x ∈ l, ∃ o ∈ keepLast l, x.1 = o.1 ∧ lexLeB x.2.1.data o.2.1.data = true := by
  intro l
  induction l with
  | nil => intro _ x hx; exact absurd hx (by simp)
  | cons r t ih =>
      intro hl x hx
      have hrel := (List.pairwise_cons.mp hl).1
      have htail := (List.pairwise_cons.mp hl).2
      cases t with
      | nil =>
          rcases List.mem_cons.mp hx with h | h
          · exact ⟨r, by simp [keepLast], congrArg Prod.fst h,
              h ▸ lexLeB_refl _⟩
          · exact absurd h (by simp)
      | cons s t' =>
          rw [keepLast]
          by_cases hrs : r.1 = s.1
          · rw [if_pos hrs]
            rcases List.mem_cons.mp hx with h | h
            · subst h
              rcases ih htail s (List.mem_cons_self s t') with ⟨o, ho, hzo, hpo⟩
              refine ⟨o, ho, hrs.trans hzo, ?_⟩
              have hxs : lexLeB x.2.1.data s.2.1.data = true :=
                zoriRowLe_period (hrel s (List.mem_cons_self s t')) hrs
              exact lexLeB_trans hxs hpo
            · rcases ih htail x h with ⟨o, ho, hzo, hpo⟩
              exact ⟨o, ho, hzo, hpo⟩
          · rw [if_neg hrs]
            rcases List.mem_cons.mp hx with h | h
            · subst h
              exact ⟨x, List.mem_cons_self x _, rfl, lexLeB_refl _⟩
            · rcases ih htail x h with ⟨o, ho, hzo, hpo⟩
              exact ⟨o, List.mem_cons_of_mem r ho, hzo, hpo⟩

/-- On a zip-sorted list, `keepLast` keeps rows with strictly
increasing zips. -/
theorem keepLast_strict : ∀ (l : List ZoriRow), l.Pairwise zoriRowLe →
    (keepLast l).Pairwise fun a b => lexLtB a.1.data b.1.data = true := by
  intro l
  induction l with
  | nil => intro _; simp [keepLast]
  | cons r t ih =>
      intro hl
      have hrel := (List.pairwise_cons.mp hl).1
      have htail := (List.pairwise_cons.mp hl).2
      cases t with
      | nil => simp [keepLast]
      | cons s t' =>
          rw [keepLast]
          by_cases hrs : r.1 = s.1
          · rw [if_pos hrs]
            exact ih htail
          · rw [if_neg hrs]
            refine List.pairwise_cons.mpr ⟨?_, ih htail⟩
            intro o ho
            have homem : o ∈ s :: t' := keepLast_subset _ o ho
            have hrs' : lexLtB r.1.data s.1.data = true := by
              rcases zoriRowLe_zip (hrel s (List.mem_cons_self s t')) with h | h
              · exact h
              · exact absurd h hrs
            rcases List.mem_cons.mp homem with h | h
            · exact h ▸ hrs'
            · have hso := (List.pairwise_cons.mp htail).1 o h
              rcases zoriRowLe_zip hso with h2 | h2
              · exact lexLtB_trans hrs' h2
              · rw [← congrArg String.data h2]; exact hrs'

/-- With unique keys on the right table, a key filter selects at most
one row. -/
theorem filter_key_len {β : Type} (right : List (String × β))
    (h : (right.map Prod.fst).Nodup) (k : String) :
    (right.filter fun rb => rb.1 = k).length ≤ 1 := by
  induction right with
  | nil => simp
  | cons rb rest ih =>
      rw [List.map_cons] at h
      obtain ⟨hnotin, htail⟩ := List.nodup_cons.mp h
      rw [List.filter_cons]
      by_cases hk : rb.1 = k
      · rw [if_pos (by simpa using hk)]
        have hnil : (rest.filter fun x => x.1 = k) = [] := by
          rw [List.filter_eq_nil_iff]
          intro x hx
          simp only [decide_eq_true_eq]
          intro hxk
          exact hnotin (hk ▸ hxk ▸ List.mem_map_of_mem Prod.fst hx)
        simp [hnil]
      · rw [if_neg (by simpa using hk)]
        exact ih htail

/-- With unique keys on the right, a left join returns exactly the
left table (in order), each row decorated with an optional match. -/
theorem left_merge_proj {α β : Type} (l : List (String × α))
    (r : List (String × β)) (hr : (r.map Prod.fst).Nodup) :
    (left_merge l r).map (fun x => (x.1, x.2.1)) = l := by
  induction l with
  | nil => rfl
  | cons la t ih =>
      rw [left_merge, List.flatMap_cons, List.map_append]
      rw [left_merge] at ih
      cases hf : r.filter fun rb => rb.1 = la.1 with
      | nil =>
          exact congrArg (List.cons la) ih
      | cons m ms =>
          have hlen := filter_key_len r hr la.1
          rw [hf] at hlen
          have hms : ms = [] := by
            cases ms with
            | nil => rfl
            | cons _ _ => simp at hlen
          subst hms
          exact congrArg (List.cons la) ih

/-- A left-joined row whose key has no match in the right table
carries a missing payload from the right table. -/
theorem left_merge_none {α β : Type} (l : List (String × α))
    (r : List (String × β)) :
    ∀ row ∈ left_merge l r, row.1 ∉ r.map Prod.fst → row.2.2 = none := by
  intro row hrow hnot
  rcases List.mem_flatMap.mp hrow with ⟨la, _, hb⟩
  revert hb
  cases hf : r.filter fun rb => rb.1 = la.1 with
  | nil =>
      intro hb
      rcases List.mem_singleton.mp hb with rfl
      rfl
  | cons m ms =>
      intro hb
      rcases List.mem_map.mp hb with ⟨rb, hrb, hrb2⟩
      have hrbr : rb ∈ r ∧ rb.1 = la.1 := by
        have := hf ▸ hrb
        exact ⟨(List.mem_filter.mp this).1, by
          simpa using (List.mem_filter.mp this).2⟩
      exfalso
      apply hnot
      rw [← hrb2]
      simp only []
      rw [← hrbr.2]
      exact List.mem_map_of_mem Prod.fst hrbr.1

/-- Every left-joined row's key and left payload come from the left
table. -/
theorem left_merge_left_mem {α β : Type} (l : List (String × α))
    (r : List (String × β)) :
    ∀ row ∈ left_merge l r, (row.1, row.2.1) ∈ l := by
  intro row hrow
  rcases List.mem_flatMap.mp hrow with ⟨la, hla, hb⟩
  revert hb
  cases hf : r.filter fun rb => rb.1 = la.1 with
  | nil =>
      intro hb
      rcases List.mem_singleton.mp hb with rfl
      simpa using hla
  | cons m ms =>
      intro hb
      rcases List.mem_map.mp hb with ⟨rb, _, hrb2⟩
      rw [← hrb2]
      simpa using hla

/-- The unweighted group mean of two present values. -/
theorem groupby_mean_pair (a b : ℚ) :
    groupby_mean [some a, some b] = some ((a + b) / 2) := by
  simp [groupby_mean]

/-- The unweighted group mean of a single present value. -/
theorem groupby_mean_single (a : ℚ) : groupby_mean [some a] = some a := by
  simp [groupby_mean]

/-- One aggregated demographic field in closed form: the
population-weighted mean of the group's values. -/
theorem agg_field_weighted (g : List DemoPctRow) (f : DemoPctRow → Option ℚ)
    (hw : ∀ r ∈ g, r.total_pop.isSome)
    (hpos : 0 < (g.map fun r => r.total_pop.getD 0).sum) :
    weighted_mean (g.map fun r => (f r, r.total_pop)) =
      (g.map fun r => (f r).getD 0 * r.total_pop.getD 0).sum /
        (g.map fun r => r.total_pop.getD 0).sum := by
  have hw' : ∀ p ∈ g.map fun r => (f r, r.total_pop), p.2.isSome := by
    intro p hp
    rcases List.mem_map.mp hp with ⟨r, hr, rfl⟩
    exact hw r hr
  have hden : ((g.map fun r => (f r, r.total_pop)).map fun p => p.2.getD 0) =
      g.map fun r => r.total_pop.getD 0 := by
    rw [List.map_map]; rfl
  have hnum : ((g.map fun r => (f r, r.total_pop)).map
      fun p => p.1.getD 0 * p.2.getD 0) =
      g.map fun r => (f r).getD 0 * r.total_pop.getD 0 := by
    rw [List.map_map]; rfl
  rw [weighted_mean_eq _ hw' (by rw [hden]; exact hpos), hden, hnum]

/-- C1 (amended).  The demographic rate/percentage/income fields ARE
aggregated by the population-weighted mean `Σ value·pop / Σ pop`
(demographics.py lines 204-223); but the commute-table rate fields of
build.py lines 135-159 — including `rent_to_income` — are aggregated
by the UNWEIGHTED mean of the non-missing tract values, so for the
Scenario A inputs area 1's aggregated rent-to-income is 0.4 (not the
population-weighted 0.45) and area 2's is 0.4. -/
theorem C1_aggregation_semantics (g : List DemoPctRow)
    (hw : ∀ r ∈ g, r.total_pop.isSome)
    (hv : ∀ r ∈ g, r.pct_hispanic.isSome ∧ r.pct_white.isSome ∧
      r.pct_black.isSome ∧ r.pct_asian.isSome ∧ r.pct_other.isSome ∧
      r.median_income.isSome)
    (hpos : 0 < (g.map fun r => r.total_pop.getD 0).sum) :
    ((aggregate_demographics_group g).pct_hispanic =
        (g.map fun r => r.pct_hispanic.getD 0 * r.total_pop.getD 0).sum /
          (g.map fun r => r.total_pop.getD 0).sum
      ∧ (aggregate_demographics_group g).pct_white =
        (g.map fun r => r.pct_white.getD 0 * r.total_pop.getD 0).sum /
          (g.map fun r => r.total_pop.getD 0).sum
      ∧ (aggregate_demographics_group g).pct_black =
        (g.map fun r => r.pct_black.getD 0 * r.total_pop.getD 0).sum /
          (g.map fun r => r.total_pop.getD 0).sum
      ∧ (aggregate_demographics_group g).pct_asian =
        (g.map fun r => r.pct_asian.getD 0 * r.total_pop.getD 0).sum /
          (g.map fun r => r.total_pop.getD 0).sum
      ∧ (aggregate_demographics_group g).pct_other =
        (g.map fun r => r.pct_other.getD 0 * r.total_pop.getD 0).sum /
          (g.map fun r => r.total_pop.getD 0).sum
      ∧ (aggregate_demographics_group g).median_income =
        (g.map fun r => r.median_income.getD 0 * r.total_pop.getD 0).sum /
          (g.map fun r => r.total_pop.getD 0).sum)
    ∧ groupby_mean [some (3/10), some (5/10)] = some (2/5)
    ∧ groupby_mean [some (2/5)] = some (2/5) := by
  refine ⟨⟨?_, ?_, ?_, ?_, ?_, ?_⟩, ?_, ?_⟩
  · exact agg_field_weighted g (fun r => r.pct_hispanic) hw hpos
  · exact agg_field_weighted g (fun r => r.pct_white) hw hpos
  · exact agg_field_weighted g (fun r => r.pct_black) hw hpos
  · exact agg_field_weighted g (fun r => r.pct_asian) hw hpos
  · exact agg_field_weighted g (fun r => r.pct_other) hw hpos
  · exact agg_field_weighted g (fun r => r.median_income) hw hpos
  · rw [groupby_mean_pair]; norm_num
  · rw [groupby_mean_single]

/-- C1 witness: a concrete two-tract group (populations 100 and 300,
pct_hispanic 30% and 50%, incomes 60000 and 40000) aggregates to a
45/100·100 = weighted 45 percent and a weighted income of 45000. -/
theorem C1_aggregation_semantics_witness :
    (aggregate_demographics_group
      [{ total_pop := some 100, pct_hispanic := some 30, pct_white := some 70,
         pct_black := some 0, pct_asian := some 0, pct_other := some 0,
         median_income := some 60000 },
       { total_pop := some 300, pct_hispanic := some 50, pct_white := some 50,
         pct_black := some 0, pct_asian := some 0, pct_other := some 0,
         median_income := some 40000 }]).pct_hispanic = 45
    ∧ (aggregate_demographics_group
      [{ total_pop := some 100, pct_hispanic := some 30, pct_white := some 70,
         pct_black := some 0, pct_asian := some 0, pct_other := some 0,
         median_income := some 60000 },
       { total_pop := some 300, pct_hispanic := some 50, pct_white := some 50,
         pct_black := some 0, pct_asian := some 0, pct_other := some 0,
         median_income := some 40000 }]).median_income = 45000 := by
  have h := C1_aggregation_semantics
    [{ total_pop := some 100, pct_hispanic := some 30, pct_white := some 70,
       pct_black := some 0, pct_asian := some 0, pct_other := some 0,
       median_income := some 60000 },
     { total_pop := some 300, pct_hispanic := some 50, pct_white := some 50,
       pct_black := some 0, pct_asian := some 0, pct_other := some 0,
       median_income := some 40000 }]
    (by decide)
    (by decide)
    (by norm_num [List.map_cons, List.map_nil, List.sum_cons, List.sum_nil])
  refine ⟨?_, ?_⟩
  · rw [h.1.1]; norm_num
  · rw [h.1.2.2.2.2.2]; norm_num

/-- C1 counterexample: build.py aggregates `rent_to_income` with the
plain `"mean"` aggregator, so the Scenario A group for area 1 (ratios
0.3 and 0.5 on tracts of population 100 and 300) aggregates to 0.4,
not the population-weighted 0.45 the claim asserts. -/
theorem C1_scenarioA_counterexample :
    groupby_mean [some (3/10), some (5/10)] = some (2/5)
    ∧ weighted_mean [(some (3/10), some 100), (some (5/10), some 300)] = 9/20
    ∧ (2/5 : ℚ) ≠ 9/20 := by
  refine ⟨by rw [groupby_mean_pair]; norm_num, ?_, by norm_num⟩
  simp [weighted_mean, skipnaSum, naMul]
  norm_num

/-- C2: the demographics pipeline never masks the Census sentinel.
`pd.to_numeric(..., errors="coerce")` parses "-666666666" to the
number -666666666 (it only coerces UNPARSEABLE strings), and
demographics.py — unlike acs.py lines 208-209 — has no negative-value
mask, so a reporting area containing only that tract aggregates to
median income -666666666: a large negative number, not null. -/
theorem C2_sentinel_income_corrupts_aggregate :
    toNumericCoerce (Cell.num (-666666666)) = some (-666666666)
    ∧ (aggregate_demographics_group
        [{ total_pop := some 100, pct_hispanic := some 0, pct_white := some 0,
           pct_black := some 0, pct_asian := some 0, pct_other := some 0,
           median_income := toNumericCoerce (Cell.num (-666666666)) }]).median_income
        = -666666666 := by
  constructor
  · rfl
  · simp [aggregate_demographics_group, toNumericCoerce, weighted_mean,
      skipnaSum, naMul]
    norm_num

/-- C8 (amended).  `weighted_mean` is a true weighted average in the
following senses: with all weights 1 and all values present it is the
arithmetic mean; a single member with POSITIVE weight yields that
member's value; and a zero weight-sum yields exactly 0 (the function
is total, so no exception is possible).  The positivity qualifier is
forced: a single member of weight 0 falls into the zero-weight-sum
branch and yields 0, not the member's value. -/
theorem C8_weighted_mean_true_average :
    (∀ vs : List ℚ, vs ≠ [] →
      weighted_mean (vs.map fun v => (some v, some 1)) = vs.sum / vs.length)
    ∧ (∀ v w : ℚ, 0 < w → weighted_mean [(some v, some w)] = v)
    ∧ (∀ g : List (Option ℚ × Option ℚ),
        skipnaSum (g.map fun p => p.2) = 0 → weighted_mean g = 0) := by
  refine ⟨?_, ?_, ?_⟩
  · intro vs hne
    have hnum : ∀ l : List ℚ,
        skipnaSum ((l.map fun v => (some v, some (1:ℚ))).map
          fun p => naMul p.1 p.2) = l.sum := by
      intro l
      induction l with
      | nil => rfl
      | cons x t ih => simp [skipnaSum_cons, naMul] at ih ⊢; rw [ih]
    have hden : ∀ l : List ℚ,
        skipnaSum ((l.map fun v => (some v, some (1:ℚ))).map fun p => p.2) =
          l.length := by
      intro l
      induction l with
      | nil => rfl
      | cons x t ih =>
          simp [skipnaSum_cons] at ih ⊢
          rw [ih]
          ring
    have hlen : (0:ℚ) < vs.length := by
      cases vs with
      | nil => exact absurd rfl hne
      | cons x t =>
          simp only [List.length_cons]
          push_cast
          positivity
    unfold weighted_mean
    rw [hnum, hden, if_pos hlen]
  · intro v w hw0
    have h1 : skipnaSum ([(some v, some w)].map fun p => naMul p.1 p.2) = v * w := by
      simp [skipnaSum, naMul]
    have h2 : skipnaSum ([(some v, some w)].map fun p => p.2) = w := by
      simp [skipnaSum]
    unfold weighted_mean
    rw [h1, h2, if_pos hw0]
    exact mul_div_cancel_right₀ v (ne_of_gt hw0)
  · intro g h0
    unfold weighted_mean
    rw [h0]
    simp

/-- C8 witness: weights all 1 on values [1, 3] give the arithmetic
mean 2; the singleton (7, weight 2) gives 7; a singleton with weight 0
gives 0. -/
theorem C8_weighted_mean_true_average_witness :
    weighted_mean ([(1:ℚ), 3].map fun v => (some v, some 1)) = 2
    ∧ weighted_mean [(some 7, some 2)] = 7
    ∧ weighted_mean [(some 2, some 0)] = 0 := by
  refine ⟨?_, ?_, ?_⟩
  · have h := C8_weighted_mean_true_average.1 [(1:ℚ), 3] (by simp)
    rw [h]; norm_num
  · exact C8_weighted_mean_true_average.2.1 7 2 (by norm_num)
  · exact C8_weighted_mean_true_average.2.2 [(some 2, some 0)] (by simp [skipnaSum])

/-- C8 counterexample: a group with the single member (value 5,
population 0) has weight sum 0, so `weighted_mean` returns 0 — not
the member's value 5 as the claim's single-member clause demands. -/
theorem C8_single_member_zero_weight :
    weighted_mean [(some 5, some 0)] = 0 ∧ (0:ℚ) ≠ 5 := by
  constructor
  · simp [weighted_mean, skipnaSum, naMul]
  · norm_num

/-- C9: in `weighted_mean`, a member with a missing value contributes
zero to the numerator while its population still counts in the
denominator: with all populations present and positive total, the
result is the sum of value·population over value-present members
divided by the sum of population over ALL members — missing values
are neither dropped-and-renormalized nor do they poison the group. -/
theorem C9_weighted_mean_missing_contributes_zero
    (g : List (Option ℚ × Option ℚ))
    (hw : ∀ p ∈ g, p.2.isSome)
    (hpos : 0 < (g.map fun p => p.2.getD 0).sum) :
    weighted_mean g =
      (((g.filter fun p => p.1.isSome).map
          fun p => p.1.getD 0 * p.2.getD 0).sum) /
        ((g.map fun p => p.2.getD 0).sum) := by
  rw [weighted_mean_eq g hw hpos, num_sum_eq_filter]

/-- C9 witness: in the group [(10, pop 100), (missing, pop 300)], the
missing member keeps its 300 people in the denominator: the result is
1000/400 = 2.5, not 10 (renormalized) and not missing. -/
theorem C9_weighted_mean_missing_witness :
    weighted_mean [(some 10, some 100), (none, some 300)] = 5/2 := by
  have h := C9_weighted_mean_missing_contributes_zero
    [(some 10, some 100), (none, some 300)]
    (by decide)
    (by norm_num [List.map_cons, List.map_nil, List.sum_cons, List.sum_nil])
  rw [h]
  norm_num [List.filter_cons]

/-- C3 (amended).  Every ratio derived in `compute_acs_features` is
null whenever its denominator count is null or ≤ 0: negative
denominators are masked to NA, zero denominators are replaced by NA,
and NA propagates through the division — never zero, never infinite,
never NaN.  (The demographic percentage columns of
`compute_demographic_percentages` do NOT satisfy this: see the
counterexample — a zero-population tract gets 0, and would get +inf
for a positive count.) -/
theorem C3_acs_ratios_null_on_bad_denominator (r : AcsRaw) :
    (DenomBad r.ttw_total →
      (compute_acs_features r).pct_commute_lt10 = none
      ∧ (compute_acs_features r).pct_commute_10_19 = none
      ∧ (compute_acs_features r).pct_commute_20_29 = none
      ∧ (compute_acs_features r).pct_commute_30_44 = none
      ∧ (compute_acs_features r).pct_commute_45_59 = none
      ∧ (compute_acs_features r).pct_commute_60_plus = none
      ∧ (compute_acs_features r).long45_share = none
      ∧ (compute_acs_features r).long60_share = none
      ∧ (compute_acs_features r).commute_min_proxy = none)
    ∧ (DenomBad r.mode_total →
      (compute_acs_features r).pct_drive_alone = none
      ∧ (compute_acs_features r).pct_carpool = none
      ∧ (compute_acs_features r).pct_transit = none
      ∧ (compute_acs_features r).pct_walk = none
      ∧ (compute_acs_features r).pct_wfh = none
      ∧ (compute_acs_features r).pct_car = none)
    ∧ (DenomBad r.rent_burden_total →
      (compute_acs_features r).pct_rent_burden_30 = none
      ∧ (compute_acs_features r).pct_rent_burden_50 = none)
    ∧ (DenomBad r.tenure_total →
      (compute_acs_features r).renter_share = none)
    ∧ (DenomBad r.vehicles_total →
      (compute_acs_features r).pct_no_vehicle = none
      ∧ (compute_acs_features r).vehicle_access = none)
    ∧ (DenomBad r.median_income →
      (compute_acs_features r).rent_to_income = none) := by
  refine ⟨?_, ?_, ?_, ?_, ?_, ?_⟩
  · intro hbad
    have h := replace0_maskNeg_of_denomBad hbad
    simp only [compute_acs_features, maskAcsRow] at *
    rw [h]
    simp
  · intro hbad
    have h := replace0_maskNeg_of_denomBad hbad
    simp only [compute_acs_features, maskAcsRow] at *
    rw [h]
    simp
  · intro hbad
    have h := replace0_maskNeg_of_denomBad hbad
    simp only [compute_acs_features, maskAcsRow] at *
    rw [h]
    simp
  · intro hbad
    have h := replace0_maskNeg_of_denomBad hbad
    simp only [compute_acs_features, maskAcsRow] at *
    rw [h]
    simp
  · intro hbad
    have h := replace0_maskNeg_of_denomBad hbad
    simp only [compute_acs_features, maskAcsRow] at *
    rw [h]
    simp
  · intro hbad
    have hmi : maskNeg r.median_income = none ∨ maskNeg r.median_income = some 0 := by
      rcases hbad with hnone | ⟨q, heq, hq⟩
      · left; simp [maskNeg, hnone]
      · rcases lt_or_eq_of_le hq with hlt | rfl
        · left; simp [maskNeg, heq, hlt]
        · right; simp [maskNeg, heq]
    rcases hmi with hmi | hmi
    · cases hmr : maskNeg r.median_rent with
      | none =>
          simp only [compute_acs_features, maskAcsRow]
          rw [hmi, hmr]
      | some rent =>
          simp only [compute_acs_features, maskAcsRow]
          rw [hmi, hmr]
    · cases hmr : maskNeg r.median_rent with
      | none =>
          simp only [compute_acs_features, maskAcsRow]
          rw [hmi, hmr]
      | some rent =>
          simp only [compute_acs_features, maskAcsRow]
          rw [hmi, hmr]
          simp [lt_irrefl]

/-- C3 witness: a tract row whose universe counts are all 0 (and whose
income is 0) derives null for every ratio. -/
theorem C3_acs_ratios_null_witness :
    (compute_acs_features
      { median_rent := some 1200, median_income := some 0, ttw_total := some 0,
        ttw_lt5 := some 1, ttw_5_9 := some 1, ttw_10_14 := some 1,
        ttw_15_19 := some 1, ttw_20_24 := some 1, ttw_25_29 := some 1,
        ttw_30_34 := some 1, ttw_35_39 := some 1, ttw_40_44 := some 1,
        ttw_45_59 := some 1, ttw_60_89 := some 1, ttw_90_plus := some 1,
        mode_total := some 0, mode_car_alone := some 1, mode_carpool := some 1,
        mode_transit := some 1, mode_walk := some 1, mode_wfh := some 1,
        rent_burden_total := none, rent_burden_30_34 := some 1,
        rent_burden_35_39 := some 1, rent_burden_40_49 := some 1,
        rent_burden_50_plus := some 1, tenure_total := some (-1),
        tenure_renter := some 1, vehicles_total := some 0,
        vehicles_none := some 1, vehicles_1 := some 1,
        vehicles_2_plus := some 1 }).pct_commute_lt10 = none
    ∧ (compute_acs_features
      { median_rent := some 1200, median_income := some 0, ttw_total := some 0,
        ttw_lt5 := some 1, ttw_5_9 := some 1, ttw_10_14 := some 1,
        ttw_15_19 := some 1, ttw_20_24 := some 1, ttw_25_29 := some 1,
        ttw_30_34 := some 1, ttw_35_39 := some 1, ttw_40_44 := some 1,
        ttw_45_59 := some 1, ttw_60_89 := some 1, ttw_90_plus := some 1,
        mode_total := some 0, mode_car_alone := some 1, mode_carpool := some 1,
        mode_transit := some 1, mode_walk := some 1, mode_wfh := some 1,
        rent_burden_total := none, rent_burden_30_34 := some 1,
        rent_burden_35_39 := some 1, rent_burden_40_49 := some 1,
        rent_burden_50_plus := some 1, tenure_total := some (-1),
        tenure_renter := some 1, vehicles_total := some 0,
        vehicles_none := some 1, vehicles_1 := some 1,
        vehicles_2_plus := some 1 }).pct_drive_alone = none
    ∧ (compute_acs_features
      { median_rent := some 1200, median_income := some 0, ttw_total := some 0,
        ttw_lt5 := some 1, ttw_5_9 := some 1, ttw_10_14 := some 1,
        ttw_15_19 := some 1, ttw_20_24 := some 1, ttw_25_29 := some 1,
        ttw_30_34 := some 1, ttw_35_39 := some 1, ttw_40_44 := some 1,
        ttw_45_59 := some 1, ttw_60_89 := some 1, ttw_90_plus := some 1,
        mode_total := some 0, mode_car_alone := some 1, mode_carpool := some 1,
        mode_transit := some 1, mode_walk := some 1, mode_wfh := some 1,
        rent_burden_total := none, rent_burden_30_34 := some 1,
        rent_burden_35_39 := some 1, rent_burden_40_49 := some 1,
        rent_burden_50_plus := some 1, tenure_total := some (-1),
        tenure_renter := some 1, vehicles_total := some 0,
        vehicles_none := some 1, vehicles_1 := some 1,
        vehicles_2_plus := some 1 }).pct_rent_burden_30 = none
    ∧ (compute_acs_features
      { median_rent := some 1200, median_income := some 0, ttw_total := some 0,
        ttw_lt5 := some 1, ttw_5_9 := some 1, ttw_10_14 := some 1,
        ttw_15_19 := some 1, ttw_20_24 := some 1, ttw_25_29 := some 1,
        ttw_30_34 := some 1, ttw_35_39 := some 1, ttw_40_44 := some 1,
        ttw_45_59 := some 1, ttw_60_89 := some 1, ttw_90_plus := some 1,
        mode_total := some 0, mode_car_alone := some 1, mode_carpool := some 1,
        mode_transit := some 1, mode_walk := some 1, mode_wfh := some 1,
        rent_burden_total := none, rent_burden_30_34 := some 1,
        rent_burden_35_39 := some 1, rent_burden_40_49 := some 1,
        rent_burden_50_plus := some 1, tenure_total := some (-1),
        tenure_renter := some 1, vehicles_total := some 0,
        vehicles_none := some 1, vehicles_1 := some 1,
        vehicles_2_plus := some 1 }).renter_share = none
    ∧ (compute_acs_features
      { median_rent := some 1200, median_income := some 0, ttw_total := some 0,
        ttw_lt5 := some 1, ttw_5_9 := some 1, ttw_10_14 := some 1,
        ttw_15_19 := some 1, ttw_20_24 := some 1, ttw_25_29 := some 1,
        ttw_30_34 := some 1, ttw_35_39 := some 1, ttw_40_44 := some 1,
        ttw_45_59 := some 1, ttw_60_89 := some 1, ttw_90_plus := some 1,
        mode_total := some 0, mode_car_alone := some 1, mode_carpool := some 1,
        mode_transit := some 1, mode_walk := some 1, mode_wfh := some 1,
        rent_burden_total := none, rent_burden_30_34 := some 1,
        rent_burden_35_39 := some 1, rent_burden_40_49 := some 1,
        rent_burden_50_plus := some 1, tenure_total := some (-1),
        tenure_renter := some 1, vehicles_total := some 0,
        vehicles_none := some 1, vehicles_1 := some 1,
        vehicles_2_plus := some 1 }).vehicle_access = none
    ∧ (compute_acs_features
      { median_rent := some 1200, median_income := some 0, ttw_total := some 0,
        ttw_lt5 := some 1, ttw_5_9 := some 1, ttw_10_14 := some 1,
        ttw_15_19 := some 1, ttw_20_24 := some 1, ttw_25_29 := some 1,
        ttw_30_34 := some 1, ttw_35_39 := some 1, ttw_40_44 := some 1,
        ttw_45_59 := some 1, ttw_60_89 := some 1, ttw_90_plus := some 1,
        mode_total := some 0, mode_car_alone := some 1, mode_carpool := some 1,
        mode_transit := some 1, mode_walk := some 1, mode_wfh := some 1,
        rent_burden_total := none, rent_burden_30_34 := some 1,
        rent_burden_35_39 := some 1, rent_burden_40_49 := some 1,
        rent_burden_50_plus := some 1, tenure_total := some (-1),
        tenure_renter := some 1, vehicles_total := some 0,
        vehicles_none := some 1, vehicles_1 := some 1,
        vehicles_2_plus := some 1 }).rent_to_income = none := by
  have h := C3_acs_ratios_null_on_bad_denominator
    { median_rent := some 1200, median_income := some 0, ttw_total := some 0,
      ttw_lt5 := some 1, ttw_5_9 := some 1, ttw_10_14 := some 1,
      ttw_15_19 := some 1, ttw_20_24 := some 1, ttw_25_29 := some 1,
      ttw_30_34 := some 1, ttw_35_39 := some 1, ttw_40_44 := some 1,
      ttw_45_59 := some 1, ttw_60_89 := some 1, ttw_90_plus := some 1,
      mode_total := some 0, mode_car_alone := some 1, mode_carpool := some 1,
      mode_transit := some 1, mode_walk := some 1, mode_wfh := some 1,
      rent_burden_total := none, rent_burden_30_34 := some 1,
      rent_burden_35_39 := some 1, rent_burden_40_49 := some 1,
      rent_burden_50_plus := some 1, tenure_total := some (-1),
      tenure_renter := some 1, vehicles_total := some 0,
      vehicles_none := some 1, vehicles_1 := some 1,
      vehicles_2_plus := some 1 }
  refine ⟨(h.1 (Or.inr ⟨0, rfl, le_refl 0⟩)).1,
    (h.2.1 (Or.inr ⟨0, rfl, le_refl 0⟩)).1,
    (h.2.2.1 (Or.inl rfl)).1,
    h.2.2.2.1 (Or.inr ⟨-1, rfl, by norm_num⟩),
    (h.2.2.2.2.1 (Or.inr ⟨0, rfl, le_refl 0⟩)).2,
    h.2.2.2.2.2 (Or.inr ⟨0, rfl, le_refl 0⟩)⟩

/-- C3 counterexample: `compute_demographic_percentages` computes
`(count / total_pop * 100).fillna(0)`.  For a tract with
`total_pop = 0` and `hispanic = 0` the division is NaN and `fillna`
turns it into 0 — the output is ZERO, not missing, violating the
claim; and for `total_pop = 0` with a positive count the result is
+infinity. -/
theorem C3_demographic_pct_zero_pop :
    pct_of_total (some 0) (some 0) = PFloat.fin 0
    ∧ pct_of_total (some 5) (some 0) = PFloat.pinf
    ∧ PFloat.fin 0 ≠ PFloat.nan := by
  refine ⟨rfl, ?_, by simp⟩
  have h5 : ((5:ℚ) = 0) = False := by norm_num
  have h5' : ((0:ℚ) < 5) = True := by norm_num
  simp [pct_of_total, pdDiv, h5, h5', pdMul100, fillna0]

/-- C4 (amended).  `create_income_segments` labels every row from the
empirical 0.25 and 0.75 quantile cut points (quartiles, matching the
code and its docstring — NOT the 1/3 and 2/3 tercile cut points the
spec names): Low strictly below the 0.25 quantile, Medium up to and
including the 0.75 quantile, High above it; a missing income yields a
missing label. -/
theorem C4_income_segments_from_quartiles (incomes : List (Option ℚ)) (i : ℕ) :
    (incomes[i]? = some none →
      (create_income_segments incomes)[i]? = some none)
    ∧ ∀ v : ℚ, incomes[i]? = some (some v) →
        (create_income_segments incomes)[i]? =
          some (if naLtB v (quantileLinear (1/4) (incomes.filterMap id))
                then some Segment.Low
                else if naLeB v (quantileLinear (3/4) (incomes.filterMap id))
                then some Segment.Medium
                else some Segment.High) := by
  constructor
  · intro h
    simp [create_income_segments, List.getElem?_map, h, assign_segment]
  · intro v h
    simp [create_income_segments, List.getElem?_map, h, assign_segment]

/-- C4 witness: for the income column [10, missing, 50] the quartile
cut points are 20 and 40; the missing row gets a missing label, and
the income-10 row is labelled Low. -/
theorem C4_income_segments_witness :
    (create_income_segments [some 10, none, some 50])[1]? = some none
    ∧ (create_income_segments [some 10, none, some 50])[0]? =
        some (some Segment.Low) := by
  constructor
  · exact (C4_income_segments_from_quartiles [some 10, none, some 50] 1).1 rfl
  · have h := (C4_income_segments_from_quartiles [some 10, none, some 50] 0).2 10 rfl
    rw [h]
    norm_num [quantileLinear, naLtB, List.insertionSort, List.orderedInsert,
      show Int.toNat 0 = 0 from rfl]

/-- C4 counterexample: the label is NOT assigned from the 1/3 and 2/3
quantile cut points.  The income columns A = [10,20,30,40,50,19] and
B = [1,2,3,19,59/3,21,22,30,100/3,40,45,50,55] have identical
empirical 1/3 and 2/3 quantiles (59/3 and 100/3), yet the income-19
row is labelled Low under A and Medium under B (the code actually cuts
at the 0.25/0.75 quantiles, which differ: 19.25 vs 19). -/
theorem C4_not_from_tercile_cuts :
    quantileLinear (1/3)
        ([some (10:ℚ), some 20, some 30, some 40, some 50, some 19].filterMap id)
      = quantileLinear (1/3)
        ([some (1:ℚ), some 2, some 3, some 19, some (59/3), some 21, some 22,
          some 30, some (100/3), some 40, some 45, some 50, some 55].filterMap id)
    ∧ quantileLinear (2/3)
        ([some (10:ℚ), some 20, some 30, some 40, some 50, some 19].filterMap id)
      = quantileLinear (2/3)
        ([some (1:ℚ), some 2, some 3, some 19, some (59/3), some 21, some 22,
          some 30, some (100/3), some 40, some 45, some 50, some 55].filterMap id)
    ∧ (create_income_segments
        [some (10:ℚ), some 20, some 30, some 40, some 50, some 19]).getD 5 none
      = some Segment.Low
    ∧ (create_income_segments
        [some (1:ℚ), some 2, some 3, some 19, some (59/3), some 21, some 22,
         some 30, some (100/3), some 40, some 45, some 50, some 55]).getD 3 none
      = some Segment.Medium
    ∧ Segment.Low ≠ Segment.Medium := by
  refine ⟨?_, ?_, ?_, ?_, by simp⟩
  · norm_num [quantileLinear, List.insertionSort, List.orderedInsert,
      show Int.toNat 0 = 0 from rfl, show Int.toNat 1 = 1 from rfl,
      show Int.toNat 2 = 2 from rfl, show Int.toNat 3 = 3 from rfl,
      show Int.toNat 4 = 4 from rfl, show Int.toNat 8 = 8 from rfl,
      show Int.toNat 9 = 9 from rfl]
  · norm_num [quantileLinear, List.insertionSort, List.orderedInsert,
      show Int.toNat 0 = 0 from rfl, show Int.toNat 1 = 1 from rfl,
      show Int.toNat 2 = 2 from rfl, show Int.toNat 3 = 3 from rfl,
      show Int.toNat 4 = 4 from rfl, show Int.toNat 8 = 8 from rfl,
      show Int.toNat 9 = 9 from rfl]
  · norm_num [create_income_segments, assign_segment, naLtB, naLeB,
      quantileLinear, List.insertionSort, List.orderedInsert,
      show Int.toNat 0 = 0 from rfl, show Int.toNat 1 = 1 from rfl,
      show Int.toNat 2 = 2 from rfl, show Int.toNat 3 = 3 from rfl,
      show Int.toNat 4 = 4 from rfl, show Int.toNat 8 = 8 from rfl,
      show Int.toNat 9 = 9 from rfl]
  · norm_num [create_income_segments, assign_segment, naLtB, naLeB,
      quantileLinear, List.insertionSort, List.orderedInsert,
      show Int.toNat 0 = 0 from rfl, show Int.toNat 1 = 1 from rfl,
      show Int.toNat 2 = 2 from rfl, show Int.toNat 3 = 3 from rfl,
      show Int.toNat 4 = 4 from rfl, show Int.toNat 8 = 8 from rfl,
      show Int.toNat 9 = 9 from rfl]

/-- C7 (amended).  `assign_segment` is monotone (for non-missing
incomes, a smaller income never gets a label ordered above a larger
income's label, under Low ≤ Medium ≤ High); but ties at the cut
points both land in Medium: an income EQUAL to the lower (0.25) cut
point is assigned Medium — the UPPER of its two adjacent segments —
while an income equal to the upper (0.75) cut point is assigned
Medium, the lower of its two. -/
theorem C7_assign_segment_monotone_ties :
    (∀ (q25 q75 : Option ℚ) (a b : ℚ), a < b →
      ∀ sa sb, assign_segment q25 q75 (some a) = some sa →
        assign_segment q25 q75 (some b) = some sb → segRank sa ≤ segRank sb)
    ∧ (∀ c1 c3 : ℚ, c1 ≤ c3 →
        assign_segment (some c1) (some c3) (some c1) = some Segment.Medium
        ∧ assign_segment (some c1) (some c3) (some c3) = some Segment.Medium) := by
  constructor
  · intro q25 q75 a b hab sa sb hsa hsb
    simp only [assign_segment] at hsa hsb
    by_cases h1 : naLtB a q25 = true
    · rw [if_pos h1] at hsa
      cases hsa
      simp [segRank]
    · rw [if_neg h1] at hsa
      have hb1 : naLtB b q25 = false := by
        cases q25 with
        | none => rfl
        | some c =>
            simp only [naLtB, decide_eq_true_eq] at h1 ⊢
            simp only [decide_eq_false_iff_not]
            intro hbc
            exact h1 (lt_trans hab hbc)
      by_cases h2 : naLeB a q75 = true
      · rw [if_pos h2] at hsa
        cases hsa
        rw [hb1] at hsb
        simp only [Bool.false_eq_true, if_false] at hsb
        by_cases h3 : naLeB b q75 = true
        · rw [if_pos h3] at hsb
          cases hsb
          simp [segRank]
        · rw [if_neg h3] at hsb
          cases hsb
          simp [segRank]
      · rw [if_neg h2] at hsa
        cases hsa
        have hb2 : naLeB b q75 = false := by
          cases q75 with
          | none => rfl
          | some c =>
              simp only [naLeB, decide_eq_true_eq] at h2
              simp only [naLeB, decide_eq_false_iff_not]
              intro hbc
              exact h2 (le_of_lt (lt_of_lt_of_le hab hbc))
        rw [hb1] at hsb
        simp only [Bool.false_eq_true, if_false] at hsb
        rw [hb2] at hsb
        simp only [Bool.false_eq_true, if_false] at hsb
        cases hsb
        simp [segRank]
  · intro c1 c3 h13
    constructor
    · simp [assign_segment, naLtB, naLeB, lt_irrefl, h13]
    · have hnl : ¬ c3 < c1 := not_lt.mpr h13
      simp [assign_segment, naLtB, naLeB, hnl, le_refl]

/-- C7 witness: with cut points 20 and 40, incomes 10 < 30 get labels
Low ≤ Medium; and both ties land in Medium. -/
theorem C7_assign_segment_witness :
    segRank Segment.Low ≤ segRank Segment.Medium
    ∧ assign_segment (some 20) (some 40) (some 20) = some Segment.Medium
    ∧ assign_segment (some 20) (some 40) (some 40) = some Segment.Medium := by
  refine ⟨?_, ?_, ?_⟩
  · exact C7_assign_segment_monotone_ties.1 (some 20) (some 40) 10 30
      (by norm_num) Segment.Low Segment.Medium
      (by norm_num [assign_segment, naLtB, naLeB])
      (by norm_num [assign_segment, naLtB, naLeB])
  · exact (C7_assign_segment_monotone_ties.2 20 40 (by norm_num)).1
  · exact (C7_assign_segment_monotone_ties.2 20 40 (by norm_num)).2

/-- C7 counterexample: in the income column [10,20,30,40,50] the
0.25-quantile cut point is exactly 20, and the income-20 row is
labelled Medium — the UPPER of the two segments adjacent to that cut
point — contradicting the claim that boundary ties go to the lower
segment (which would be Low). -/
theorem C7_tie_at_lower_cut_is_medium :
    quantileLinear (1/4)
        ([some (10:ℚ), some 20, some 30, some 40, some 50].filterMap id)
      = some 20
    ∧ (create_income_segments
        [some (10:ℚ), some 20, some 30, some 40, some 50]).getD 1 none
      = some Segment.Medium
    ∧ Segment.Medium ≠ Segment.Low := by
  refine ⟨?_, ?_, by simp⟩
  · norm_num [quantileLinear, List.insertionSort, List.orderedInsert,
      show Int.toNat 1 = 1 from rfl]
  · norm_num [create_income_segments, assign_segment, naLtB, naLeB,
      quantileLinear, List.insertionSort, List.orderedInsert,
      show Int.toNat 1 = 1 from rfl, show Int.toNat 3 = 3 from rfl]

/-- C5: given pairwise non-overlapping reporting-area polygons (and
unique tract identifiers, the data-model invariant), the mapping
produced by `tract_to_zcta_centroid_map` is a function: no tract
identifier is paired with two different reporting-area identifiers. -/
theorem C5_tract_map_is_function (tracts : List Tract) (zctas : List Zcta)
    (htr : (tracts.map Tract.geoid).Nodup)
    (hnz : PairwiseNonOverlapping zctas) :
    ∀ g z1 z2, (g, z1) ∈ tract_to_zcta_centroid_map tracts zctas →
      (g, z2) ∈ tract_to_zcta_centroid_map tracts zctas → z1 = z2 := by
  intro g z1 z2 h1 h2
  obtain ⟨p1, hp1, he1⟩ := List.mem_map.mp h1
  obtain ⟨p2, hp2, he2⟩ := List.mem_map.mp h2
  rw [List.mem_dedup] at hp1 hp2
  obtain ⟨t1, ht1, hb1⟩ := List.mem_flatMap.mp hp1
  obtain ⟨zc1, hzc1, hb1'⟩ := List.mem_map.mp hb1
  obtain ⟨t2, ht2, hb2⟩ := List.mem_flatMap.mp hp2
  obtain ⟨zc2, hzc2, hb2'⟩ := List.mem_map.mp hb2
  have hz1f := List.mem_filter.mp hzc1
  have hz2f := List.mem_filter.mp hzc2
  rw [← hb1'] at he1
  rw [← hb2'] at he2
  have hg1 : t1.geoid = g := (Prod.mk.injEq _ _ _ _ |>.mp he1).1
  have hv1 : zfill 5 zc1.zcta5ce = z1 := (Prod.mk.injEq _ _ _ _ |>.mp he1).2
  have hg2 : t2.geoid = g := (Prod.mk.injEq _ _ _ _ |>.mp he2).1
  have hv2 : zfill 5 zc2.zcta5ce = z2 := (Prod.mk.injEq _ _ _ _ |>.mp he2).2
  have ht12 : t1 = t2 :=
    List.inj_on_of_nodup_map htr ht1 ht2 (hg1.trans hg2.symm)
  by_cases hzz : zc1 = zc2
  · rw [← hv1, ← hv2, hzz]
  · have hsym : Symmetric
        (fun za zb : Zcta => ∀ p, ¬(za.contains p = true ∧ zb.contains p = true)) :=
      fun za zb h p hp => h p ⟨hp.2, hp.1⟩
    have hnover := List.Pairwise.forall hsym hnz hz1f.1 hz2f.1 hzz
    have hc1 : zc1.contains t1.centroid = true := by simpa using hz1f.2
    have hc2 : zc2.contains t1.centroid = true := by
      have := hz2f.2
      rw [← ht12] at this
      simpa using this
    exact absurd ⟨hc1, hc2⟩ (hnover t1.centroid)

/-- C5 witness: the sample tract maps into the padded area "00101",
and the theorem applies to the sample's non-overlapping half-planes. -/
theorem C5_tract_map_is_function_witness :
    ("t1", "00101") ∈ tract_to_zcta_centroid_map sampleTracts sampleZctas
    ∧ "00101" = "00101" := by
  have hnz : PairwiseNonOverlapping sampleZctas := by
    refine List.pairwise_cons.mpr ⟨?_, List.pairwise_singleton _ _⟩
    intro zb hzb p hp
    rcases List.mem_singleton.mp hzb with rfl
    have hlt : p.1 < 1 := of_decide_eq_true hp.1
    have hge : 1 ≤ p.1 := of_decide_eq_true hp.2
    linarith
  have hmem : ("t1", "00101") ∈ tract_to_zcta_centroid_map sampleTracts sampleZctas := by
    decide
  exact ⟨hmem,
    C5_tract_map_is_function sampleTracts sampleZctas (by decide) hnz
      "t1" "00101" "00101" hmem hmem⟩

/-- With unique right keys, a left join preserves the left key column
exactly. -/
theorem left_merge_keys {α β : Type} (l : List (String × α))
    (r : List (String × β)) (hr : (r.map Prod.fst).Nodup) :
    (left_merge l r).map Prod.fst = l.map Prod.fst := by
  have h := left_merge_proj l r hr
  calc (left_merge l r).map Prod.fst
      = ((left_merge l r).map fun x => (x.1, x.2.1)).map Prod.fst := by
        rw [List.map_map]; rfl
    _ = l.map Prod.fst := by rw [h]

/-- C6: the step-7 merge chain keeps exactly one row per aggregated
reporting-area identifier (given unique keys per table, true of the
groupby outputs and geometry tables feeding it), and when the
rent-index, transit-density or area table has no match for an
identifier, that row's corresponding payload is missing rather than
the row being dropped. -/
theorem C6_final_merge_preserves_areas {α β γ δ ε : Type}
    (agg : List (String × α)) (demo : List (String × β))
    (zoriT : List (String × γ)) (transit : List (String × δ))
    (area : List (String × ε))
    (hagg : (agg.map Prod.fst).Nodup)
    (hdemo : (demo.map Prod.fst).Nodup)
    (hzori : (zoriT.map Prod.fst).Nodup)
    (htransit : (transit.map Prod.fst).Nodup)
    (harea : (area.map Prod.fst).Nodup) :
    (build_final_merge agg demo zoriT transit area).map Prod.fst = agg.map Prod.fst
    ∧ ((build_final_merge agg demo zoriT transit area).map Prod.fst).Nodup
    ∧ ∀ row ∈ build_final_merge agg demo zoriT transit area,
        (row.1 ∉ zoriT.map Prod.fst → row.2.1.1.2 = none)
        ∧ (row.1 ∉ transit.map Prod.fst → row.2.1.2 = none)
        ∧ (row.1 ∉ area.map Prod.fst → row.2.2 = none) := by
  have hkeys : (build_final_merge agg demo zoriT transit area).map Prod.fst =
      agg.map Prod.fst := by
    unfold build_final_merge
    rw [left_merge_keys _ _ harea, left_merge_keys _ _ htransit,
      left_merge_keys _ _ hzori, left_merge_keys _ _ hdemo]
  refine ⟨hkeys, by rw [hkeys]; exact hagg, ?_⟩
  intro row hrow
  refine ⟨?_, ?_, ?_⟩
  · intro hnot
    have h1 := left_merge_left_mem _ _ row hrow
    have h2 := left_merge_left_mem _ _ _ h1
    exact left_merge_none _ _ _ h2 hnot
  · intro hnot
    have h1 := left_merge_left_mem _ _ row hrow
    exact left_merge_none _ _ _ h1 hnot
  · intro hnot
    exact left_merge_none _ _ row hrow hnot

/-- C6 witness: with aggregated areas 00001 and 00002, a demographics
match only for 00001, a rent-index match only for 00002, no transit
rows and an area row only for 00001, the final table holds exactly the
two aggregated keys and the 00002 row carries missing transit and
missing area payloads. -/
theorem C6_final_merge_preserves_areas_witness :
    (build_final_merge [("00001", (1:ℚ)), ("00002", 2)] [("00001", (3:ℚ))]
      [("00002", (4:ℚ))] ([] : List (String × ℚ)) [("00001", (5:ℚ))]).map Prod.fst
      = ["00001", "00002"]
    ∧ ("00002", ((((2:ℚ), (none : Option ℚ)), some (4:ℚ)), (none : Option ℚ)),
        (none : Option ℚ)) ∈
        build_final_merge [("00001", (1:ℚ)), ("00002", 2)] [("00001", (3:ℚ))]
          [("00002", (4:ℚ))] ([] : List (String × ℚ)) [("00001", (5:ℚ))]
    ∧ ((((2:ℚ), (none : Option ℚ)), some (4:ℚ)), (none : Option ℚ)).2 = none
    ∧ ((none : Option ℚ) : Option ℚ) = none := by
  have h := C6_final_merge_preserves_areas
    [("00001", (1:ℚ)), ("00002", 2)] [("00001", (3:ℚ))]
    [("00002", (4:ℚ))] ([] : List (String × ℚ)) [("00001", (5:ℚ))]
    (by decide) (by decide) (by decide) (by decide) (by decide)
  have hmem : ("00002", ((((2:ℚ), (none : Option ℚ)), some (4:ℚ)),
      (none : Option ℚ)), (none : Option ℚ)) ∈
      build_final_merge [("00001", (1:ℚ)), ("00002", 2)] [("00001", (3:ℚ))]
        [("00002", (4:ℚ))] ([] : List (String × ℚ)) [("00001", (5:ℚ))] := by
    decide
  refine ⟨h.1.trans rfl, hmem, ?_, ?_⟩
  · exact (h.2.2 _ hmem).2.1 (by decide)
  · exact (h.2.2 _ hmem).2.2 (by decide)

/-- C10: for every input rent-index table, `fetch_zori_latest` keeps
at most one row per distinct zero-padded zip (the output zip column
has no duplicates), every output row is one of the input observations
that parsed to a non-null number (so its zori value is a number, not
null), and the retained row's period is the lexicographically
greatest among that zip's parseable observations. -/
theorem C10_fetch_zori_latest_spec (wide : List (String × List (String × Cell))) :
    ((fetch_zori_latest wide).map Prod.fst).Nodup
    ∧ ∀ r ∈ fetch_zori_latest wide,
        r ∈ zoriParsed wide
        ∧ ∀ x ∈ zoriParsed wide, x.1 = r.1 →
            lexLeB x.2.1.data r.2.1.data = true := by
  haveI := zoriRowLe_isTotal
  haveI := zoriRowLe_isTrans
  have hsort : (List.insertionSort zoriRowLe (zoriParsed wide)).Pairwise zoriRowLe :=
    List.sorted_insertionSort zoriRowLe (zoriParsed wide)
  have hperm := List.perm_insertionSort zoriRowLe (zoriParsed wide)
  have hstrict := keepLast_strict _ hsort
  have hnodup : ((fetch_zori_latest wide).map Prod.fst).Nodup := by
    refine List.pairwise_map.mpr (hstrict.imp ?_)
    intro a b hlt heq
    rw [congrArg String.data heq, lexLtB_irrefl] at hlt
    exact absurd hlt (by simp)
  refine ⟨hnodup, ?_⟩
  intro r hr
  have hrs : r ∈ List.insertionSort zoriRowLe (zoriParsed wide) :=
    keepLast_subset _ r hr
  refine ⟨hperm.subset hrs, ?_⟩
  intro x hx hzip
  have hxs : x ∈ List.insertionSort zoriRowLe (zoriParsed wide) :=
    (hperm.mem_iff).mpr hx
  obtain ⟨o, ho, hzo, hpo⟩ := keepLast_represents _ hsort x hxs
  have hor : o = r :=
    List.inj_on_of_nodup_map hnodup ho hr (hzo.symm.trans hzip)
  rw [hor] at hpo
  exact hpo

/-- C10 witness: on the sample table, the output zips are unique, the
retained row for zip 00123 is its 2024-02 observation (value 110,
zero-padded zip), and the discarded 2024-01 observation's period is
indeed ≤ the retained one. -/
theorem C10_fetch_zori_latest_witness :
    ((fetch_zori_latest sampleZoriWide).map Prod.fst).Nodup
    ∧ ("00123", "2024-02", (110:ℚ)) ∈ zoriParsed sampleZoriWide
    ∧ lexLeB "2024-01".data "2024-02".data = true := by
  have h := C10_fetch_zori_latest_spec sampleZoriWide
  have hmem : ("00123", "2024-02", (110:ℚ)) ∈ fetch_zori_latest sampleZoriWide := by
    decide
  exact ⟨h.1, (h.2 _ hmem).1,
    (h.2 _ hmem).2 ("00123", "2024-01", 100) (by decide) rfl⟩

end HousingCommute
